import Mathlib

/-!
Verification development for the Qwiklip Instagram media-extraction core.

The Go source is shallowly embedded: Go strings become `List Char`,
decoded `encoding/json` values become the inductive `Json`
(`map[string]interface{}` is an association list, reflecting one fixed
iteration order of the Go map), and Go panics caused by unchecked type
assertions are made explicit through the `GoOut` result type.
-/

/-- Go strings, embedded as lists of characters. -/
abbrev GoStr := List Char

/-- Coerce a Lean string literal to the `GoStr` embedding. -/
def gs (s : String) : GoStr := s.toList

/-- ASCII lower-casing of one character, as Go `strings.ToLower` acts on
ASCII input (all strings compared in this development are ASCII). -/
def lowerChar (c : Char) : Char :=
  if 'A' ≤ c ∧ c ≤ 'Z' then Char.ofNat (c.toNat + 32) else c

/-- Go `strings.ToLower`, restricted to the ASCII fragment. -/
def toLowerGo (s : GoStr) : GoStr := s.map lowerChar

/-- Go `strings.Contains`: is `pat` a contiguous substring of `s`? -/
def containsSub (s pat : GoStr) : Bool :=
  match s with
  | [] => pat.isEmpty
  | _ :: rest => pat.isPrefixOf s || containsSub rest pat

/-- Does the string contain the character `c`? (Go `strings.ContainsRune`.) -/
def containsChar (s : GoStr) (c : Char) : Bool := s.contains c

/-- Go `strings.Split(s, sep)` for a one-character separator. -/
def splitOnChar (s : GoStr) (c : Char) : List GoStr :=
  match s with
  | [] => [[]]
  | x :: xs =>
    if x = c then [] :: splitOnChar xs c
    else
      match splitOnChar xs c with
      | [] => [[x]]
      | h :: t => (x :: h) :: t

/-- Go `strings.TrimSuffix(s, suf)` for a one-character suffix: removes one
trailing occurrence of `c` if present. -/
def trimSuffixChar (s : GoStr) (c : Char) : GoStr :=
  match s.getLast? with
  | some d => if d = c then s.dropLast else s
  | none => s

/-- Does the string end with the character `c`? -/
def endsWithChar (s : GoStr) (c : Char) : Bool := s.getLast? = some c

/-- Go whitespace test used by `strings.TrimSpace` (ASCII fragment). -/
def isSpaceGo (c : Char) : Bool :=
  c = ' ' ∨ c = '\t' ∨ c = '\n' ∨ c = '\r' ∨ c = Char.ofNat 11 ∨ c = Char.ofNat 12

/-- Go `strings.TrimSpace` (ASCII fragment). -/
def trimSpaceGo (s : GoStr) : GoStr :=
  ((s.dropWhile isSpaceGo).reverse.dropWhile isSpaceGo).reverse

/-- Fuel-indexed body of `replaceAllGo`; the fuel is only a structural
termination device and `s.length` of it always suffices, since each step
consumes at least one character of `s`. -/
def replaceAllFuel : Nat → GoStr → GoStr → GoStr → GoStr
  | 0, s, _, _ => s
  | _ + 1, [], _, _ => []
  | fuel + 1, x :: xs, old, new =>
    if old.isPrefixOf (x :: xs) ∧ ¬ old.isEmpty then
      new ++ replaceAllFuel fuel ((x :: xs).drop old.length) old new
    else
      x :: replaceAllFuel fuel xs old new

/-- Go `strings.ReplaceAll(s, old, new)` for a non-empty pattern `old`:
left-to-right replacement of non-overlapping occurrences. -/
def replaceAllGo (s : GoStr) (old new : GoStr) : GoStr :=
  replaceAllFuel s.length s old new

/-- Decoded `encoding/json` values (`interface{}` after `json.Unmarshal`):
`null`, booleans, numbers (the numeral kept as its lexeme, since none of the
embedded code inspects numeric values), strings, arrays and objects.  A Go
`map[string]interface{}` is embedded as an association list in one fixed
iteration order; a missing key yields `Json.null`, matching Go's `nil`
interface value for both JSON `null` and an absent key. -/
inductive Json where
  | null : Json
  | bool (b : Bool) : Json
  | num (lexeme : GoStr) : Json
  | str (s : GoStr) : Json
  | arr (items : List Json) : Json
  | obj (fields : List (GoStr × Json)) : Json

/-- A decoded JSON object (`map[string]interface{}`). -/
abbrev JObj := List (GoStr × Json)

/-- Indexing a Go map: the value at the first matching key, or the `nil`
interface value (`Json.null`) when the key is absent. -/
def mapGet (m : JObj) (k : GoStr) : Json :=
  match m with
  | [] => Json.null
  | (k', v) :: rest => if k' = k then v else mapGet rest k

/-- The second result of Go's two-valued map index: is the key present? -/
def hasKey (m : JObj) (k : GoStr) : Bool :=
  match m with
  | [] => false
  | (k', _) :: rest => k' = k || hasKey rest k

/-- The comma-ok type assertion `v.(map[string]interface{})`. -/
def asObj : Json → Option JObj
  | Json.obj m => some m
  | _ => none

/-- The comma-ok type assertion `v.([]interface{})`. -/
def asArr : Json → Option (List Json)
  | Json.arr xs => some xs
  | _ => none

/-- The comma-ok type assertion `v.(string)`. -/
def asStr : Json → Option GoStr
  | Json.str s => some s
  | _ => none

/-- The comma-ok type assertion `v.(bool)`. -/
def asBool : Json → Option Bool
  | Json.bool b => some b
  | _ => none

/-- Outcome of running a piece of Go code that may panic: either a value or
a run-time panic (here always from a failed single-valued type assertion). -/
inductive GoOut (α : Type) where
  | panicked : GoOut α
  | val (a : α) : GoOut α
deriving DecidableEq

/-- The single-valued (unchecked) type assertion `v.(map[string]interface{})`:
panics unless the dynamic type is a JSON object. -/
def assertObj : Json → GoOut JObj
  | Json.obj m => GoOut.val m
  | _ => GoOut.panicked

/-- `models.InstagramMediaInfo` (the fields the extraction code touches;
absent optional fields are the empty string, Go's zero value). -/
structure InstagramMediaInfo where
  videoURL : GoStr
  fileName : GoStr
  username : GoStr
  caption : GoStr
deriving DecidableEq

/-- Helper `getShortcodeMedia` from the source: comma-ok descent
`data.(map)["shortcode_media"].(map)`, `nil` (here `none`) on any mismatch. -/
def getShortcodeMedia (data : Json) : Option JObj :=
  match asObj data with
  | some dataMap => asObj (mapGet dataMap (gs "shortcode_media"))
  | none => none

/-- Second half of `extractVideoURLFromMedia`: the `video_versions[0].url`
probe. -/
def extractVideoURLFromMediaVersions (media : JObj) : GoStr :=
  match asArr (mapGet media (gs "video_versions")) with
  | some (v0 :: _) =>
    match asObj v0 with
    | some version =>
      match asStr (mapGet version (gs "url")) with
      | some url => url
      | none => []
    | none => []
  | _ => []

/-- Helper `extractVideoURLFromMedia` from the source: `is_video` flag plus
`video_url`, else first element of `video_versions` and its `url`; empty
string when neither applies.  All lookups are comma-ok, so no panic. -/
def extractVideoURLFromMedia (media : JObj) : GoStr :=
  match asBool (mapGet media (gs "is_video")) with
  | some true =>
    match asStr (mapGet media (gs "video_url")) with
    | some videoURL => videoURL
    | none => extractVideoURLFromMediaVersions media
  | _ => extractVideoURLFromMediaVersions media

/-- Go interface equality `itemMap["0"] == "PostPage"` against a string
constant: true exactly when the dynamic type is `string` and the contents
agree (comparison against a differing dynamic type is `false`, not a
panic). -/
def jsonEqStr (v : Json) (s : GoStr) : Bool :=
  match v with
  | Json.str t => t = s
  | _ => false

/-- Structure 1 of `findVideoURL` (PostPage / "require" format), iterating
the `require` array.  Faithfully keeps the source's single-valued assertion
`itemMap["1"].(map[string]interface{})`, which panics when the entry has
key `"0"` equal to `"PostPage"` but `"1"` is missing or not an object. -/
def findVideoURLRequireLoop (items : List Json) : GoOut (Option GoStr) :=
  match items with
  | [] => GoOut.val none
  | item :: rest =>
    match asObj item with
    | none => findVideoURLRequireLoop rest
    | some itemMap =>
      if jsonEqStr (mapGet itemMap (gs "0")) (gs "PostPage") then
        match assertObj (mapGet itemMap (gs "1")) with
        | GoOut.panicked => GoOut.panicked
        | GoOut.val m1 =>
          match asObj (mapGet m1 (gs "graphql")) with
          | some graphql =>
            match asObj (mapGet graphql (gs "shortcode_media")) with
            | some shortcodeMedia =>
              match asBool (mapGet shortcodeMedia (gs "is_video")) with
              | some true =>
                match asStr (mapGet shortcodeMedia (gs "video_url")) with
                | some videoURL => GoOut.val (some videoURL)
                | none => findVideoURLRequireLoop rest
              | _ => findVideoURLRequireLoop rest
            | none => findVideoURLRequireLoop rest
          | none => findVideoURLRequireLoop rest
      else findVideoURLRequireLoop rest

/-- Structure 4 of `findVideoURL` (Apollo state): scan the top-level keys
for one containing `Media:<shortcode>` or `ShortcodeMedia:<shortcode>`. -/
def findVideoURLApolloLoop (fields : List (GoStr × Json)) (shortcode : GoStr) :
    Option GoStr :=
  match fields with
  | [] => none
  | (key, value) :: rest =>
    if containsSub key (gs "Media:" ++ shortcode)
        || containsSub key (gs "ShortcodeMedia:" ++ shortcode) then
      match asObj value with
      | some media =>
        match asStr (mapGet media (gs "video_url")) with
        | some videoURL => some videoURL
        | none =>
          match asStr (mapGet media (gs "videoUrl")) with
          | some videoURL => some videoURL
          | none => findVideoURLApolloLoop rest shortcode
      | none => findVideoURLApolloLoop rest shortcode
    else findVideoURLApolloLoop rest shortcode

/-- `findVideoURL` from the source: probes the five known JSON shapes in
order (PostPage `require` array, SharedData `entry_data`, direct `items`
array, Apollo state, direct `graphql` envelope) and returns the first video
URL found, or the empty string.  The result is a `GoOut` because two probes
contain unchecked type assertions that can panic. -/
def findVideoURL (jsonData : JObj) (shortcode : GoStr) : GoOut GoStr :=
  -- Structure 1: PostPage format
  match
    (match asArr (mapGet jsonData (gs "require")) with
     | some items => findVideoURLRequireLoop items
     | none => GoOut.val none) with
  | GoOut.panicked => GoOut.panicked
  | GoOut.val (some url) => GoOut.val url
  | GoOut.val none =>
  -- Structure 2: SharedData format
  match
    (match asObj (mapGet jsonData (gs "entry_data")) with
     | some entryData =>
       match asArr (mapGet entryData (gs "PostPage")) with
       | some (p0 :: _) =>
         match getShortcodeMedia p0 with
         | some media =>
           let u := extractVideoURLFromMedia media
           if u = [] then none else some u
         | none => none
       | _ => none
     | none => none) with
  | some url => GoOut.val url
  | none =>
  -- Structure 3: direct items format; `items[0].(map[string]interface{})`
  -- is a single-valued assertion and panics when items[0] is not an object.
  match
    (match asArr (mapGet jsonData (gs "items")) with
     | some (i0 :: _) =>
       match assertObj i0 with
       | GoOut.panicked => GoOut.panicked
       | GoOut.val media =>
         let u := extractVideoURLFromMedia media
         GoOut.val (if u = [] then none else some u)
     | _ => GoOut.val none) with
  | GoOut.panicked => GoOut.panicked
  | GoOut.val (some url) => GoOut.val url
  | GoOut.val none =>
  -- Structure 4: Apollo state format
  match
    (if hasKey jsonData (gs "ROOT_QUERY") then
       findVideoURLApolloLoop jsonData shortcode
     else none) with
  | some url => GoOut.val url
  | none =>
  -- Structure 5: direct API response format
  match
    (match asObj (mapGet jsonData (gs "graphql")) with
     | some graphql =>
       match getShortcodeMedia (Json.obj graphql) with
       | some media =>
         let u := extractVideoURLFromMedia media
         if u = [] then none else some u
       | none => none
     | none => none) with
  | some url => GoOut.val url
  | none => GoOut.val []

/-- One step of the `extractMetadata` loop over the `require` array.  The
accumulator carries the (username, caption) fields written so far; later
array entries overwrite earlier ones, as in the source.  The source's
`itemMap["1"].(map[string]interface{})` is an unchecked assertion applied
to every object entry, so it panics whenever key `"1"` is missing or not an
object. -/
def extractMetadataLoop (items : List Json) (acc : GoStr × GoStr) :
    GoOut (GoStr × GoStr) :=
  match items with
  | [] => GoOut.val acc
  | item :: rest =>
    match asObj item with
    | none => extractMetadataLoop rest acc
    | some itemMap =>
      match assertObj (mapGet itemMap (gs "1")) with
      | GoOut.panicked => GoOut.panicked
      | GoOut.val m1 =>
        match asObj (mapGet m1 (gs "graphql")) with
        | none => extractMetadataLoop rest acc
        | some graphql =>
          match asObj (mapGet graphql (gs "shortcode_media")) with
          | none => extractMetadataLoop rest acc
          | some shortcodeMedia =>
            let acc1 :=
              match asObj (mapGet shortcodeMedia (gs "owner")) with
              | some owner =>
                match asStr (mapGet owner (gs "username")) with
                | some username => (username, acc.2)
                | none => acc
              | none => acc
            let acc2 :=
              match asObj (mapGet shortcodeMedia (gs "edge_media_to_caption")) with
              | some caption =>
                match asArr (mapGet caption (gs "edges")) with
                | some (e0 :: _) =>
                  match asObj e0 with
                  | some edge =>
                    match asObj (mapGet edge (gs "node")) with
                    | some node =>
                      match asStr (mapGet node (gs "text")) with
                      | some text => (acc1.1, text)
                      | none => acc1
                    | none => acc1
                  | none => acc1
                | _ => acc1
              | none => acc1
            extractMetadataLoop rest acc2

/-- `extractMetadata` from the source: best-effort extraction of username
and caption from the `require` array.  Returns the pair of fields written
into the media info (empty string = untouched zero value); `GoOut` because
of the unchecked assertion described at `extractMetadataLoop`. -/
def extractMetadata (jsonData : JObj) : GoOut (GoStr × GoStr) :=
  match asArr (mapGet jsonData (gs "require")) with
  | some items => extractMetadataLoop items ([], [])
  | none => GoOut.val ([], [])

/-- `parseMediaInfo` from the source: build the media info with file name
`<shortcode>.mp4`, find the video URL (error when empty), then run the
best-effort metadata extraction. -/
def parseMediaInfo (jsonData : JObj) (shortcode : GoStr) :
    GoOut (Except GoStr InstagramMediaInfo) :=
  match findVideoURL jsonData shortcode with
  | GoOut.panicked => GoOut.panicked
  | GoOut.val videoURL =>
    if videoURL = [] then
      GoOut.val (Except.error (gs "could not find video URL in Instagram response"))
    else
      match extractMetadata jsonData with
      | GoOut.panicked => GoOut.panicked
      | GoOut.val (username, caption) =>
        GoOut.val (Except.ok
          { videoURL := videoURL
            fileName := shortcode ++ gs ".mp4"
            username := username
            caption := caption })

/-- The replacement table of `unescapeURL`, in the textual order of the
source.  In Go this is a `map[string]string`, so the traversal order of
`for old, new := range replacements` is unspecified and randomized; results
below that depend on the order are stated over permutations of this list. -/
def replacements : List (GoStr × GoStr) :=
  [(gs "\\u0025", gs "%"),
   (gs "\\u002F", gs "/"),
   (gs "\\u003A", gs ":"),
   (gs "\\u003F", gs "?"),
   (gs "\\u003D", gs "="),
   (gs "\\u0026", gs "&"),
   (gs "\\", gs "")]

/-- `unescapeURL` body for one fixed traversal order of the replacement
map: apply `strings.ReplaceAll` for each table entry in the given order. -/
def unescapeURLWith (order : List (GoStr × GoStr)) (urlStr : GoStr) : GoStr :=
  order.foldl (fun result p => replaceAllGo result p.1 p.2) urlStr

/-- `unescapeURL` from the source, fixing the table's textual order as the
traversal order (one of the orders the Go map range can produce). -/
def unescapeURL (urlStr : GoStr) : GoStr := unescapeURLWith replacements urlStr

/-- The fixed soft-404 indicator list of `isInstagram404Page`. -/
def instagram404Indicators : List GoStr :=
  [gs "Sorry, this page isn\x27t available",
   gs "The link you followed may be broken",
   gs "this post is unavailable",
   gs "content isn\x27t available",
   gs "this content isn\x27t available right now",
   gs "this account has been suspended",
   gs "this account may have been deactivated",
   gs "Page Not Found",
   gs "post not found",
   gs "video not found"]

/-- `isInstagram404Page` from the source: lower-case the page body and
check it for any of the (lower-cased) indicator phrases. -/
def isInstagram404Page (html : GoStr) : Bool :=
  instagram404Indicators.any
    (fun indicator => containsSub (toLowerGo html) (toLowerGo indicator))

/-- `models.ErrorType`, the closed error taxonomy of the code
(`internal/models/errors.go`).  Note it has no upstream-error kind. -/
inductive ErrorType where
  | invalidURL | network | extraction | parsing
  | notFound | unsupported | authentication | rateLimited
deriving DecidableEq

/-- The error taxonomy of the specification's section 7 table.  This is a
spec-side definition, used only to compare the spec's claimed error kinds
against the code's `ErrorType`. -/
inductive SpecErrorKind where
  | specInvalidURL | specNotFound | specRateLimited | specUpstreamError
  | specNetworkError | specExtraction | specParsing | specUnsupported
deriving DecidableEq

/-- The name-for-name correspondence between the specification's error
kinds and the code's `ErrorType` constants.  The spec's `UpstreamError` has
no counterpart in the code's taxonomy, so it corresponds to no code kind. -/
def kindMatches : SpecErrorKind → ErrorType → Bool
  | SpecErrorKind.specInvalidURL, ErrorType.invalidURL => true
  | SpecErrorKind.specNotFound, ErrorType.notFound => true
  | SpecErrorKind.specRateLimited, ErrorType.rateLimited => true
  | SpecErrorKind.specNetworkError, ErrorType.network => true
  | SpecErrorKind.specExtraction, ErrorType.extraction => true
  | SpecErrorKind.specParsing, ErrorType.parsing => true
  | SpecErrorKind.specUnsupported, ErrorType.unsupported => true
  | _, _ => false

/-- One transport attempt for a fetch candidate: either a transport-level
error (`httpClient.Do` returned an error) or an HTTP response with a status
code and a body. -/
inductive FetchOutcome where
  | transportErr : FetchOutcome
  | resp (status : Nat) (body : GoStr) : FetchOutcome

/-- Result of the candidate loop: the successful page body, or a typed
failure (the `AppError` message strings are dropped; only the `ErrorType`
kind is kept). -/
inductive FetchStop where
  | success (body : GoStr) : FetchStop
  | failure (k : ErrorType) : FetchStop
deriving DecidableEq

/-- Classification of one candidate attempt, from the body of the fetch
loop in `GetMediaInfo`: `none` means soft-fail (keep trying the next
candidate: transport error, or a 3xx status); `some` means the loop stops
with a success or a typed failure.  2xx responses are additionally screened
by `isInstagram404Page`; 404 maps to `NewNotFoundError`, 429 to
`NewRateLimitedError`, and both 5xx and the remaining 4xx statuses to
`NewNetworkError`. -/
def fetchClassify (o : FetchOutcome) : Option FetchStop :=
  match o with
  | FetchOutcome.transportErr => none
  | FetchOutcome.resp status body =>
    if 200 ≤ status ∧ status < 300 then
      if isInstagram404Page body then some (FetchStop.failure ErrorType.notFound)
      else some (FetchStop.success body)
    else if 400 ≤ status then
      if status = 404 then some (FetchStop.failure ErrorType.notFound)
      else if status = 429 then some (FetchStop.failure ErrorType.rateLimited)
      else if 500 ≤ status then some (FetchStop.failure ErrorType.network)
      else some (FetchStop.failure ErrorType.network)
    else none

/-- The candidate loop of `GetMediaInfo` over the remaining candidates,
also counting how many times the transport was invoked.  `t i` is the
transport outcome for candidate number `i` (the source builds 4 fixed
candidates); exhausting all candidates yields `NewNotFoundError`. -/
def fetchLoop (t : Nat → FetchOutcome) : Nat → Nat → FetchStop × Nat
  | _, 0 => (FetchStop.failure ErrorType.notFound, 0)
  | i, fuel + 1 =>
    match fetchClassify (t i) with
    | some r => (r, 1)
    | none =>
      let p := fetchLoop t (i + 1) fuel
      (p.1, p.2 + 1)

/-- The whole fetch phase of `GetMediaInfo`: try the 4 fetch candidates in
order.  Returns the loop result together with the total number of transport
invocations. -/
def runFetch (t : Nat → FetchOutcome) : FetchStop × Nat := fetchLoop t 0 4

/-- The part of Go's `net/url.Parse` that `ExtractShortcode` consumes:
everything after the first `://`, or `none` when the input has no
scheme separator. -/
def afterScheme : GoStr → Option GoStr
  | [] => none
  | x :: xs =>
    if (gs "://").isPrefixOf (x :: xs) then some ((x :: xs).drop 3)
    else afterScheme xs

/-- The path component of the part after `scheme://`: the suffix starting
at the first `/` (empty when the authority has no path). -/
def pathPart : GoStr → GoStr
  | [] => []
  | x :: xs => if x = '/' then x :: xs else pathPart xs

/-- Model of `url.Parse(urlStr).Path` for URLs without percent-escapes,
query or fragment: the path of a `scheme://host/path` URL, and the whole
input when no scheme separator is present. -/
def urlPath (u : GoStr) : GoStr :=
  match afterScheme u with
  | some rest => pathPart rest
  | none => u

/-- `ExtractShortcode` from the source: require the `instagram.com`
substring, split the trailing-slash-stripped URL path on `/`, require at
least 3 segments with the second-to-last being one of the type markers
`p`, `reel`, `tv`, and return the last segment. -/
def ExtractShortcode (urlStr : GoStr) : Except GoStr GoStr :=
  if containsSub urlStr (gs "instagram.com") then
    let path := trimSuffixChar (urlPath urlStr) '/'
    let segments := splitOnChar path '/'
    if 3 ≤ segments.length then
      let pathType := segments.getD (segments.length - 2) []
      if pathType = gs "p" ∨ pathType = gs "reel" ∨ pathType = gs "tv" then
        Except.ok (segments.getD (segments.length - 1) [])
      else Except.error (gs "could not extract shortcode from URL: " ++ urlStr)
    else Except.error (gs "could not extract shortcode from URL: " ++ urlStr)
  else Except.error (gs "not an Instagram URL: " ++ urlStr)

/-- One atom of the regular-expression patterns used by the extraction
code.  The source's patterns are plain sequences built from literals, one
capture group, lazy `.*?`, greedy `[^c]+` / `[^c]*`, `\d+` and `\s*`; this
inductive covers exactly those constructs. -/
inductive Atom where
  | lit (c : Char)
  | dotStarLazy
  | notCharPlus (c : Char)
  | notCharStar (c : Char)
  | digitsPlus
  | digitsStar
  | spaceStar
  | groupStart
  | groupEnd

/-- Literal-character comparison of the matcher, honouring the `(?i)`
case-insensitive flag (ASCII folding, as all patterns are ASCII). -/
def charMatchRe (ci : Bool) (x c : Char) : Bool :=
  if ci then lowerChar x = lowerChar c else x = c

/-- ASCII digit test (`\d`). -/
def isDigitRe (c : Char) : Bool := '0' ≤ c ∧ c ≤ '9'

/-- The `\s` class of Go's regexp package: `[\t\n\f\r ]`. -/
def isSpaceRe (c : Char) : Bool :=
  c = '\t' ∨ c = '\n' ∨ c = Char.ofNat 12 ∨ c = '\r' ∨ c = ' '

/-- Anchored backtracking matcher for a pattern (a list of atoms) against a
prefix of `s`, with leftmost-first (backtracking) disambiguation exactly as
Go's regexp submatching: lazy `.*?` prefers the shortest extension, greedy
classes prefer the longest.  `inG`/`acc` track the single capture group
(`acc` reversed); `cap` is the completed capture.  Returns the capture
state on success.  Fuel only drives structural termination: every recursive
call shrinks the input or the atom list, so `s.length + atoms.length + 1`
always suffices. -/
def amatch (ci : Bool) : Nat → List Atom → Bool → GoStr → Option GoStr → GoStr →
    Option (Option GoStr)
  | 0, _, _, _, _, _ => none
  | fuel + 1, atoms, inG, acc, cap, s =>
    match atoms with
    | [] => some cap
    | Atom.groupStart :: rest => amatch ci fuel rest true [] cap s
    | Atom.groupEnd :: rest => amatch ci fuel rest false [] (some acc.reverse) s
    | Atom.lit c :: rest =>
      match s with
      | [] => none
      | x :: xs =>
        if charMatchRe ci x c then
          amatch ci fuel rest inG (if inG then x :: acc else acc) cap xs
        else none
    | Atom.dotStarLazy :: rest =>
      match amatch ci fuel rest inG acc cap s with
      | some r => some r
      | none =>
        match s with
        | [] => none
        | x :: xs =>
          if x = '\n' then none
          else amatch ci fuel (Atom.dotStarLazy :: rest) inG
            (if inG then x :: acc else acc) cap xs
    | Atom.notCharPlus c :: rest =>
      match s with
      | [] => none
      | x :: xs =>
        if x = c then none
        else amatch ci fuel (Atom.notCharStar c :: rest) inG
          (if inG then x :: acc else acc) cap xs
    | Atom.notCharStar c :: rest =>
      match s with
      | [] => amatch ci fuel rest inG acc cap []
      | x :: xs =>
        if x = c then amatch ci fuel rest inG acc cap s
        else
          match amatch ci fuel (Atom.notCharStar c :: rest) inG
              (if inG then x :: acc else acc) cap xs with
          | some r => some r
          | none => amatch ci fuel rest inG acc cap s
    | Atom.digitsPlus :: rest =>
      match s with
      | [] => none
      | x :: xs =>
        if isDigitRe x then
          amatch ci fuel (Atom.digitsStar :: rest) inG
            (if inG then x :: acc else acc) cap xs
        else none
    | Atom.digitsStar :: rest =>
      match s with
      | [] => amatch ci fuel rest inG acc cap []
      | x :: xs =>
        if isDigitRe x then
          match amatch ci fuel (Atom.digitsStar :: rest) inG
              (if inG then x :: acc else acc) cap xs with
          | some r => some r
          | none => amatch ci fuel rest inG acc cap s
        else amatch ci fuel rest inG acc cap s
    | Atom.spaceStar :: rest =>
      match s with
      | [] => amatch ci fuel rest inG acc cap []
      | x :: xs =>
        if isSpaceRe x then
          match amatch ci fuel (Atom.spaceStar :: rest) inG
              (if inG then x :: acc else acc) cap xs with
          | some r => some r
          | none => amatch ci fuel rest inG acc cap s
        else amatch ci fuel rest inG acc cap s

/-- Unanchored search, as `regexp.FindStringSubmatch`: try the anchored
matcher at each start position from the left; on the first success return
the capture-group value (`some none` = matched but the pattern has no
group). -/
def refind (ci : Bool) (atoms : List Atom) : GoStr → Option (Option GoStr)
  | [] => amatch ci (atoms.length + 1) atoms false [] none []
  | x :: xs =>
    match amatch ci (xs.length + atoms.length + 2) atoms false [] none (x :: xs) with
    | some cap => some cap
    | none => refind ci atoms xs

/-- Shorthand: the atoms of a run of literal characters. -/
def lits (s : String) : List Atom := s.toList.map Atom.lit

/-- The apostrophe character (U+0027). -/
def apos : Char := Char.ofNat 39

/-- JSON whitespace accepted between tokens by `encoding/json`. -/
def isSpaceJson (c : Char) : Bool :=
  c = ' ' ∨ c = '\t' ∨ c = '\n' ∨ c = '\r'

/-- Skip JSON inter-token whitespace. -/
def skipWS (s : GoStr) : GoStr := s.dropWhile isSpaceJson

/-- Hex digit value, for `\uXXXX` string escapes. -/
def hexVal (c : Char) : Option Nat :=
  if '0' ≤ c ∧ c ≤ '9' then some (c.toNat - '0'.toNat)
  else if 'a' ≤ c ∧ c ≤ 'f' then some (c.toNat - 'a'.toNat + 10)
  else if 'A' ≤ c ∧ c ≤ 'F' then some (c.toNat - 'A'.toNat + 10)
  else none

/-- Characters that may occur in a JSON number lexeme. -/
def isNumChar (c : Char) : Bool :=
  isDigitRe c ∨ c = '-' ∨ c = '+' ∨ c = '.' ∨ c = 'e' ∨ c = 'E'

/-- Insert a field into a decoded object, overwriting an existing key in
place, as assignment into a Go map does on duplicate JSON keys. -/
def objUpsert (m : JObj) (k : GoStr) (v : Json) : JObj :=
  match m with
  | [] => [(k, v)]
  | (k', v') :: rest => if k' = k then (k, v) :: rest else (k', v') :: objUpsert rest k v

mutual

/-- Recursive-descent model of `encoding/json` value parsing (objects,
arrays, strings with the common escapes, `true`/`false`/`null`, and number
lexemes, which are kept unchecked since no embedded code reads numeric
values).  Fuel drives termination; `jsonUnmarshalObj` supplies enough fuel
for any input it is applied to in this development. -/
def jsonParseVal : Nat → GoStr → Option (Json × GoStr)
  | 0, _ => none
  | fuel + 1, s =>
    let s := skipWS s
    match s with
    | [] => none
    | c :: cs =>
      if c = '"' then
        match jsonParseStr fuel cs with
        | some (t, r) => some (Json.str t, r)
        | none => none
      else if c = '[' then
        match skipWS cs with
        | ']' :: r => some (Json.arr [], r)
        | s' =>
          match jsonParseArrItems fuel s' with
          | some (xs, r) => some (Json.arr xs, r)
          | none => none
      else if c = '{' then
        match skipWS cs with
        | '}' :: r => some (Json.obj [], r)
        | s' =>
          match jsonParseObjFields fuel s' [] with
          | some (m, r) => some (Json.obj m, r)
          | none => none
      else if (gs "null").isPrefixOf s then some (Json.null, s.drop 4)
      else if (gs "true").isPrefixOf s then some (Json.bool true, s.drop 4)
      else if (gs "false").isPrefixOf s then some (Json.bool false, s.drop 5)
      else if isDigitRe c ∨ c = '-' then
        some (Json.num (s.takeWhile isNumChar), s.dropWhile isNumChar)
      else none

/-- String-body parsing after the opening quote, decoding escapes. -/
def jsonParseStr : Nat → GoStr → Option (GoStr × GoStr)
  | 0, _ => none
  | fuel + 1, s =>
    match s with
    | [] => none
    | c :: cs =>
      if c = '"' then some ([], cs)
      else if c = '\\' then
        match cs with
        | [] => none
        | e :: es =>
          if e = 'u' then
            match es with
            | h1 :: h2 :: h3 :: h4 :: rest =>
              match hexVal h1, hexVal h2, hexVal h3, hexVal h4 with
              | some a, some b, some d, some f =>
                let code := ((a * 16 + b) * 16 + d) * 16 + f
                match jsonParseStr fuel rest with
                | some (t, r) => some (Char.ofNat code :: t, r)
                | none => none
              | _, _, _, _ => none
            | _ => none
          else
            let ch : Option Char :=
              if e = '"' then some '"'
              else if e = '\\' then some '\\'
              else if e = '/' then some '/'
              else if e = 'n' then some '\n'
              else if e = 't' then some '\t'
              else if e = 'r' then some '\r'
              else if e = 'b' then some (Char.ofNat 8)
              else if e = 'f' then some (Char.ofNat 12)
              else none
            match ch with
            | some ch =>
              match jsonParseStr fuel es with
              | some (t, r) => some (ch :: t, r)
              | none => none
            | none => none
      else
        match jsonParseStr fuel cs with
        | some (t, r) => some (c :: t, r)
        | none => none

/-- Non-empty array items, after the opening bracket and leading space. -/
def jsonParseArrItems : Nat → GoStr → Option (List Json × GoStr)
  | 0, _ => none
  | fuel + 1, s =>
    match jsonParseVal fuel s with
    | none => none
    | some (v, r) =>
      match skipWS r with
      | ',' :: r' =>
        match jsonParseArrItems fuel r' with
        | some (xs, r'') => some (v :: xs, r'')
        | none => none
      | ']' :: r' => some ([v], r')
      | _ => none

/-- Non-empty object fields, after the opening brace and leading space. -/
def jsonParseObjFields : Nat → GoStr → JObj → Option (JObj × GoStr)
  | 0, _, _ => none
  | fuel + 1, s, acc =>
    match skipWS s with
    | '"' :: cs =>
      match jsonParseStr fuel cs with
      | none => none
      | some (k, r) =>
        match skipWS r with
        | ':' :: r' =>
          match jsonParseVal fuel r' with
          | none => none
          | some (v, r'') =>
            let acc' := objUpsert acc k v
            match skipWS r'' with
            | ',' :: r3 => jsonParseObjFields fuel r3 acc'
            | '}' :: r3 => some (acc', r3)
            | _ => none
        | _ => none
    | _ => none

end

/-- `json.Unmarshal(data, &m)` for `m : map[string]interface{}`: the whole
input must be a single JSON object, possibly surrounded by whitespace. -/
def jsonUnmarshalObj (s : GoStr) : Option JObj :=
  match jsonParseVal (2 * s.length + 16) s with
  | some (Json.obj m, rest) => if (skipWS rest).isEmpty then some m else none
  | _ => none

/-- The seven `jsonPatterns` of `extractJSONData`, in source order:
patterns 1-5 are regexes with one capture group, pattern 6 is the special
direct-JSON case, pattern 7 is a regex with no capture group (so its
`FindStringSubmatch` result can never have a second element and it never
yields data). -/
inductive JsonPattern where
  | re (atoms : List Atom)
  | direct
  | reNoGroup (atoms : List Atom)

/-- Pattern 1: `<script type="application/json" data-sjs>(.*?)</script>`. -/
def jsonPattern1 : List Atom :=
  lits "<script type=\"application/json\" data-sjs>"
    ++ [Atom.groupStart, Atom.dotStarLazy, Atom.groupEnd] ++ lits "</script>"

/-- Pattern 2: `window\.__additionalDataLoaded\('.*?',(.*?)\);`. -/
def jsonPattern2 : List Atom :=
  lits "window.__additionalDataLoaded(" ++ [Atom.lit apos, Atom.dotStarLazy,
    Atom.lit apos, Atom.lit ','] ++ [Atom.groupStart, Atom.dotStarLazy,
    Atom.groupEnd] ++ lits ");"

/-- Pattern 3: `<script type="text/javascript">window\._sharedData = (.*?);</script>`. -/
def jsonPattern3 : List Atom :=
  lits "<script type=\"text/javascript\">window._sharedData = "
    ++ [Atom.groupStart, Atom.dotStarLazy, Atom.groupEnd] ++ lits ";</script>"

/-- Pattern 4: `window\.__APOLLO_STATE__ = (.*?);</script>`. -/
def jsonPattern4 : List Atom :=
  lits "window.__APOLLO_STATE__ = "
    ++ [Atom.groupStart, Atom.dotStarLazy, Atom.groupEnd] ++ lits ";</script>"

/-- Pattern 5: `window\.__INITIAL_DATA__ = (.*?);</script>`. -/
def jsonPattern5 : List Atom :=
  lits "window.__INITIAL_DATA__ = "
    ++ [Atom.groupStart, Atom.dotStarLazy, Atom.groupEnd] ++ lits ";</script>"

/-- Pattern 7: `\{"graphql":\{"shortcode_media":` (no capture group). -/
def jsonPattern7 : List Atom :=
  lits "\x7b\"graphql\":\x7b\"shortcode_media\":"

/-- The ordered `jsonPatterns` list of `extractJSONData`. -/
def jsonPatterns : List JsonPattern :=
  [JsonPattern.re jsonPattern1, JsonPattern.re jsonPattern2,
   JsonPattern.re jsonPattern3, JsonPattern.re jsonPattern4,
   JsonPattern.re jsonPattern5, JsonPattern.direct,
   JsonPattern.reNoGroup jsonPattern7]

/-- The pattern loop of `extractJSONData`.  The special direct-JSON case
slices `strings.TrimSpace(html)[:9]`, which in Go panics when the trimmed
body is shorter than 9 bytes; that panic is kept.  A pattern that matches
but whose capture fails strict JSON-object decoding is skipped (the source
logs and continues). -/
def extractJSONDataLoop (html : GoStr) : List JsonPattern → GoOut (Except GoStr JObj)
  | [] => GoOut.val (Except.error (gs "could not extract JSON data"))
  | p :: rest =>
    match p with
    | JsonPattern.direct =>
      let t := trimSpaceGo html
      if t.length < 9 then GoOut.panicked
      else if t.take 9 = gs "\x7b\"items\":" then
        match jsonUnmarshalObj html with
        | some m => GoOut.val (Except.ok m)
        | none => extractJSONDataLoop html rest
      else extractJSONDataLoop html rest
    | JsonPattern.re atoms =>
      match refind false atoms html with
      | some (some capture) =>
        match jsonUnmarshalObj capture with
        | some m => GoOut.val (Except.ok m)
        | none => extractJSONDataLoop html rest
      | _ => extractJSONDataLoop html rest
    | JsonPattern.reNoGroup _ => extractJSONDataLoop html rest

/-- `extractJSONData` from the source: try the seven patterns in order and
return the first capture that decodes as a JSON object. -/
def extractJSONData (html : GoStr) : GoOut (Except GoStr JObj) :=
  extractJSONDataLoop html jsonPatterns

/-- The eight `directVideoUrlPatterns` of `extractDirectVideoURL`, in
source order. -/
def directVideoUrlPatterns : List (List Atom) :=
  [lits "\"video_versions\":[\x7b\"width\":" ++ [Atom.digitsPlus]
     ++ lits ",\"height\":" ++ [Atom.digitsPlus] ++ lits ",\"url\":\""
     ++ [Atom.groupStart] ++ lits "https://" ++ [Atom.notCharPlus '"',
       Atom.groupEnd, Atom.lit '"'],
   lits "\"video_url\":\"" ++ [Atom.groupStart] ++ lits "https://"
     ++ [Atom.notCharPlus '"', Atom.groupEnd, Atom.lit '"'],
   lits "property=\"og:video\" content=\"" ++ [Atom.groupStart]
     ++ lits "https://" ++ [Atom.notCharPlus '"', Atom.groupEnd, Atom.lit '"'],
   lits "property=\"og:video:secure_url\" content=\"" ++ [Atom.groupStart]
     ++ lits "https://" ++ [Atom.notCharPlus '"', Atom.groupEnd, Atom.lit '"'],
   lits "\"contentUrl\":\"" ++ [Atom.groupStart] ++ lits "https://"
     ++ [Atom.notCharPlus '"'] ++ lits ".mp4"
     ++ [Atom.notCharStar '"', Atom.groupEnd, Atom.lit '"'],
   lits "url\":\"" ++ [Atom.groupStart] ++ lits "https://"
     ++ [Atom.notCharPlus '"'] ++ lits ".mp4"
     ++ [Atom.notCharStar '"', Atom.groupEnd, Atom.lit '"'],
   lits "url\":" ++ [Atom.spaceStar, Atom.lit '"', Atom.groupStart,
     Atom.notCharPlus '"'] ++ lits ".mp4"
     ++ [Atom.notCharStar '"', Atom.groupEnd, Atom.lit '"'],
   lits "\"url\":" ++ [Atom.spaceStar, Atom.lit '"', Atom.groupStart,
     Atom.notCharPlus '"'] ++ lits ".mp4"
     ++ [Atom.notCharStar '"', Atom.groupEnd, Atom.lit '"']]

/-- The pattern loop of `extractDirectVideoURL`: first match wins, and the
captured string is passed through `unescapeURL` (traversal order fixed as
in `unescapeURL`). -/
def extractDirectVideoURLLoop (html : GoStr) : List (List Atom) → Except GoStr GoStr
  | [] => Except.error (gs "no direct video URL found")
  | atoms :: rest =>
    match refind false atoms html with
    | some (some capture) => Except.ok (unescapeURL capture)
    | _ => extractDirectVideoURLLoop html rest

/-- `extractDirectVideoURL` from the source. -/
def extractDirectVideoURL (html : GoStr) : Except GoStr GoStr :=
  extractDirectVideoURLLoop html directVideoUrlPatterns

/-- The six case-insensitive `fallbackVideoPatterns` of
`extractFallbackVideoURL`, in source order (each carries the `(?i)` flag). -/
def fallbackVideoPatterns : List (List Atom) :=
  [lits "\"video_versions\":[\x7b" ++ [Atom.notCharStar '}']
     ++ lits "\"url\":\"" ++ [Atom.groupStart, Atom.notCharPlus '"',
       Atom.groupEnd, Atom.lit '"'],
   lits "\"url\":\"" ++ [Atom.groupStart] ++ lits "https://"
     ++ [Atom.notCharPlus '"'] ++ lits ".mp4"
     ++ [Atom.notCharStar '"', Atom.groupEnd, Atom.lit '"'],
   lits "url\":\"" ++ [Atom.groupStart] ++ lits "https://"
     ++ [Atom.notCharPlus '"'] ++ lits ".mp4"
     ++ [Atom.notCharStar '"', Atom.groupEnd, Atom.lit '"'],
   lits "\"url\":" ++ [Atom.spaceStar, Atom.lit '"', Atom.groupStart,
     Atom.notCharPlus '"'] ++ lits ".mp4"
     ++ [Atom.notCharStar '"', Atom.groupEnd, Atom.lit '"'],
   lits "url:" ++ [Atom.spaceStar, Atom.lit '"', Atom.groupStart,
     Atom.notCharPlus '"'] ++ lits ".mp4"
     ++ [Atom.notCharStar '"', Atom.groupEnd, Atom.lit '"'],
   lits "\"contentUrl\":\"" ++ [Atom.groupStart, Atom.notCharPlus '"']
     ++ lits ".mp4" ++ [Atom.notCharStar '"', Atom.groupEnd, Atom.lit '"']]

/-- The `PolarisPostRootQueryRelayPreloader_...` pattern of
`extractFallbackVideoURL`. -/
def preloaderPattern : List Atom :=
  lits "PolarisPostRootQueryRelayPreloader_" ++ [Atom.notCharPlus '"']
    ++ lits "\"," ++ [Atom.groupStart]
    ++ lits "\x7b\"__bbox\":\x7b\"complete\":true,\"result\":\x7b\"data\":\x7b\"xdt_api__v1__media__shortcode__web_info\":\x7b\"items\":[\x7b"
    ++ [Atom.notCharPlus '}']
    ++ lits "\x7d]\x7d\x7d\x7d\x7d\x7d" ++ [Atom.groupEnd]

/-- The comma-ok navigation of the decoded preloader payload down to
`items[0].video_versions[0].url` (no unchecked assertions here, so no
panic). -/
def preloaderNavigate (preloaderData : JObj) : Option GoStr :=
  match asObj (mapGet preloaderData (gs "__bbox")) with
  | none => none
  | some bbox =>
    match asObj (mapGet bbox (gs "result")) with
    | none => none
    | some result =>
      match asObj (mapGet result (gs "data")) with
      | none => none
      | some data =>
        match asObj (mapGet data (gs "xdt_api__v1__media__shortcode__web_info")) with
        | none => none
        | some apiData =>
          match asArr (mapGet apiData (gs "items")) with
          | some (i0 :: _) =>
            match asObj i0 with
            | none => none
            | some media =>
              match asArr (mapGet media (gs "video_versions")) with
              | some (v0 :: _) =>
                match asObj v0 with
                | none => none
                | some version => asStr (mapGet version (gs "url"))
              | _ => none
          | _ => none

/-- The case-insensitive pattern loop of `extractFallbackVideoURL`. -/
def extractFallbackVideoURLLoop (html : GoStr) : List (List Atom) → Option GoStr
  | [] => none
  | atoms :: rest =>
    match refind true atoms html with
    | some (some capture) => some (unescapeURL capture)
    | _ => extractFallbackVideoURLLoop html rest

/-- `extractFallbackVideoURL` from the source: the case-insensitive
pattern set, then the preloader extraction (whose URL is returned without
unescaping); the `shortcode` parameter is unused by the logic, as in the
source. -/
def extractFallbackVideoURL (html : GoStr) (shortcode : GoStr) : Except GoStr GoStr :=
  match extractFallbackVideoURLLoop html fallbackVideoPatterns with
  | some url => Except.ok url
  | none =>
    match refind false preloaderPattern html with
    | some (some capture) =>
      match jsonUnmarshalObj capture with
      | some preloaderData =>
        match preloaderNavigate preloaderData with
        | some url => Except.ok url
        | none => Except.error (gs "no fallback video URL found")
      | none => Except.error (gs "no fallback video URL found")
    | _ => Except.error (gs "no fallback video URL found")

/-- The extraction phase of `GetMediaInfo` after a successful fetch (the
code from the `extractJSONData` call to the end of the function): when
structured data decodes, `parseMediaInfo` decides the outcome and its error
is returned directly; only when no structured data decodes are
`extractDirectVideoURL` and then `extractFallbackVideoURL` attempted. -/
def extractFromBody (body : GoStr) (shortcode : GoStr) :
    GoOut (Except GoStr InstagramMediaInfo) :=
  match extractJSONData body with
  | GoOut.panicked => GoOut.panicked
  | GoOut.val (Except.error _) =>
    match extractDirectVideoURL body with
    | Except.ok videoURL =>
      GoOut.val (Except.ok
        { videoURL := videoURL, fileName := shortcode ++ gs ".mp4",
          username := [], caption := [] })
    | Except.error _ =>
      match extractFallbackVideoURL body shortcode with
      | Except.ok videoURL =>
        GoOut.val (Except.ok
          { videoURL := videoURL, fileName := shortcode ++ gs ".mp4",
            username := [], caption := [] })
      | Except.error e => GoOut.val (Except.error e)
  | GoOut.val (Except.ok jsonData) => parseMediaInfo jsonData shortcode

/-- A decoded tree `{"require":[{"0":"PostPage"}]}`: the require entry is
tagged `PostPage` but has no `"1"` key, so `findVideoURL`'s unchecked
assertion `itemMap["1"].(map[string]interface{})` is applied to the `nil`
interface value. -/
def requireNoKey1 : JObj :=
  [(gs "require", Json.arr [Json.obj [(gs "0", Json.str (gs "PostPage"))]])]

/-- A decoded tree `{"require":[{"x":true}]}`: an object entry without a
`"1"` key, on which `extractMetadata`'s unchecked assertion
`itemMap["1"].(map[string]interface{})` is applied to the `nil` interface
value. -/
def requireNoKey1Meta : JObj :=
  [(gs "require", Json.arr [Json.obj [(gs "x", Json.bool true)]])]

/-- A page body that is bare JSON `{"items":[],"video_url":"https://x.mp4"}`:
structured data decodes (via the direct-JSON pattern) but none of the five
shapes yields a URL, while the raw-text pattern
`"video_url":"(https://[^"]+)"` would match. -/
def bodyStructuredMiss : GoStr :=
  gs "\x7b\"items\":[],\"video_url\":\"https://x.mp4\"\x7d"

/-- The decoded object of `bodyStructuredMiss`. -/
def dataStructuredMiss : JObj :=
  [(gs "items", Json.arr []), (gs "video_url", Json.str (gs "https://x.mp4"))]

/-- The escaped URL of the unescaping round-trip property:
`https://example.com/v.mp4?token=abc&x=1`. -/
def escapedRoundTripInput : GoStr :=
  gs "https:\\u002F\\u002Fexample.com\\u002Fv.mp4\\u003Ftoken\\u003Dabc\\u0026x\\u003D1"

/-- The `unescapeURL` replacement table in an order the Go map range can
also produce: the bare-backslash rule first, then the six escape rules. -/
def replacementsBackslashFirst : List (GoStr × GoStr) :=
  (gs "\\", gs "") ::
  [(gs "\\u0025", gs "%"),
   (gs "\\u002F", gs "/"),
   (gs "\\u003A", gs ":"),
   (gs "\\u003F", gs "?"),
   (gs "\\u003D", gs "="),
   (gs "\\u0026", gs "&")]

/-- The decoded Shape C object `{"items":[{"is_video":true,"video_url":
"https://cdn.example/a.mp4"}]}`. -/
def shapeCObject : JObj :=
  [(gs "items", Json.arr [Json.obj
    [(gs "is_video", Json.bool true),
     (gs "video_url", Json.str (gs "https://cdn.example/a.mp4"))]])]

/-- The empty pattern is a substring of every string. -/
theorem containsSub_nil (s : GoStr) : containsSub s [] = true := by
  cases s <;> simp [containsSub, List.isPrefixOf]

/-- Substring containment is preserved by appending on the right. -/
theorem containsSub_append (s pat v : GoStr) (h : containsSub s pat = true) :
    containsSub (s ++ v) pat = true := by
  induction s with
  | nil =>
    simp [containsSub, List.isEmpty_iff] at h
    subst h
    exact containsSub_nil v
  | cons x rest ih =>
    simp only [containsSub, Bool.or_eq_true] at h
    rcases h with h | h
    · have hpre : pat <+: x :: rest := List.isPrefixOf_iff_prefix.mp h
      have : pat <+: (x :: rest) ++ v := hpre.trans (List.prefix_append _ _)
      simp only [List.cons_append, containsSub, Bool.or_eq_true]
      exact Or.inl (List.isPrefixOf_iff_prefix.mpr this)
    · simp only [List.cons_append, containsSub, Bool.or_eq_true]
      exact Or.inr (ih h)

/-- A prefix test is unaffected by appending when the base string is at
least as long as the pattern. -/
theorem isPrefixOf_append_of_le_length (pat s v : GoStr)
    (h : pat.length ≤ s.length) :
    pat.isPrefixOf (s ++ v) = pat.isPrefixOf s := by
  induction pat generalizing s with
  | nil => simp [List.isPrefixOf]
  | cons p ps ih =>
    cases s with
    | nil => simp at h
    | cons x xs =>
      simp only [List.cons_append, List.isPrefixOf_cons₂]
      simp only [List.length_cons, Nat.add_le_add_iff_right] at h
      rw [ih xs h]

/-- The scheme separator literal, unfolded. -/
theorem gs_scheme_eq : gs "://" = [':', '/', '/'] := rfl

/-- A successful scheme search needs at least the three separator
characters. -/
theorem afterScheme_some_length (u r : GoStr) (h : afterScheme u = some r) :
    3 ≤ u.length := by
  induction u with
  | nil => simp [afterScheme] at h
  | cons x xs ih =>
    simp only [afterScheme] at h
    split at h
    · rename_i hpre
      have := (List.isPrefixOf_iff_prefix.mp hpre).length_le
      rw [gs_scheme_eq] at this
      simpa using this
    · have := ih h
      simp only [List.length_cons]
      omega

/-- The part after the scheme separator commutes with appending. -/
theorem afterScheme_append (u r v : GoStr) (h : afterScheme u = some r) :
    afterScheme (u ++ v) = some (r ++ v) := by
  induction u with
  | nil => simp [afterScheme] at h
  | cons x xs ih =>
    simp only [afterScheme] at h
    by_cases hpre : (gs "://").isPrefixOf (x :: xs)
    · rw [if_pos hpre] at h
      have hlen : (gs "://").length ≤ (x :: xs).length :=
        (List.isPrefixOf_iff_prefix.mp hpre).length_le
      have hpre' : (gs "://").isPrefixOf ((x :: xs) ++ v) := by
        rw [isPrefixOf_append_of_le_length _ _ _ hlen]
        exact hpre
      simp only [List.cons_append, afterScheme]
      rw [if_pos (by simp only [List.cons_append] at hpre'; exact hpre')]
      have hlen3 : 3 ≤ (x :: xs).length := by
        rw [gs_scheme_eq] at hlen
        simpa using hlen
      have hdrop : ((x :: xs) ++ v).drop 3 = (x :: xs).drop 3 ++ v :=
        List.drop_append_of_le_length hlen3
      simp only [List.cons_append] at hdrop
      simp only [List.append_eq]
      rw [hdrop]
      injection h with h
      rw [h]
    · rw [if_neg hpre] at h
      have hxs : 3 ≤ xs.length := afterScheme_some_length xs r h
      have hlen : (gs "://").length ≤ (x :: xs).length := by
        rw [gs_scheme_eq]
        simp only [List.length_cons]
        simpa using Nat.le_succ_of_le hxs
      have hpre' : ((gs "://").isPrefixOf ((x :: xs) ++ v))
          = (gs "://").isPrefixOf (x :: xs) :=
        isPrefixOf_append_of_le_length _ _ _ hlen
      simp only [List.cons_append, afterScheme]
      rw [if_neg (by
        simp only [List.cons_append] at hpre'
        simp only [List.append_eq]
        rw [hpre']
        exact hpre)]
      exact ih h

/-- The part after the scheme separator is a suffix of the input. -/
theorem afterScheme_suffix (u r : GoStr) (h : afterScheme u = some r) :
    r <:+ u := by
  induction u with
  | nil => simp [afterScheme] at h
  | cons x xs ih =>
    simp only [afterScheme] at h
    split at h
    · injection h with h
      rw [← h]
      exact List.drop_suffix _ _
    · exact (ih h).trans (List.suffix_cons x xs)

/-- The path component is a suffix of its input. -/
theorem pathPart_suffix (r : GoStr) : pathPart r <:+ r := by
  induction r with
  | nil => simp [pathPart]
  | cons x xs ih =>
    simp only [pathPart]
    split
    · exact List.suffix_refl _
    · exact ih.trans (List.suffix_cons x xs)

/-- A non-empty path component commutes with appending. -/
theorem pathPart_append (r v : GoStr) (h : pathPart r ≠ []) :
    pathPart (r ++ v) = pathPart r ++ v := by
  induction r with
  | nil => simp [pathPart] at h
  | cons x xs ih =>
    by_cases hx : x = '/'
    · subst hx
      simp [pathPart]
    · simp only [pathPart, if_neg hx] at h
      simp only [List.cons_append, pathPart, if_neg hx]
      exact ih h

/-- A non-empty suffix has the same last element as the whole list. -/
theorem getLast?_of_suffix (a b : GoStr) (h : a <:+ b) (ha : a ≠ []) :
    b.getLast? = a.getLast? := by
  obtain ⟨c, rfl⟩ := h
  exact List.getLast?_append_of_ne_nil c ha

/-- Trimming one trailing `c` from a string that ends in `c`. -/
theorem trimSuffixChar_concat (p : GoStr) (c : Char) :
    trimSuffixChar (p ++ [c]) c = p := by
  simp [trimSuffixChar, List.getLast?_concat, List.dropLast_concat]

/-- Trimming is the identity on strings not ending in `c`. -/
theorem trimSuffixChar_of_not_ends (p : GoStr) (c : Char)
    (h : endsWithChar p c = false) : trimSuffixChar p c = p := by
  simp only [endsWithChar, decide_eq_false_iff_not] at h
  unfold trimSuffixChar
  split
  · rename_i d hd
    rw [if_neg]
    intro hdc
    exact h (by rw [hd, hdc])
  · rfl

/-- If the first `j` candidates soft-fail and candidate `j` classifies
definitively, the candidate loop stops there with exactly `j + 1` transport
invocations. -/
theorem fetchLoop_stop (t : Nat → FetchOutcome) (r : FetchStop) :
    ∀ (j fuel start : Nat), j < fuel →
      (∀ i, i < j → fetchClassify (t (start + i)) = none) →
      fetchClassify (t (start + j)) = some r →
      fetchLoop t start fuel = (r, j + 1) := by
  intro j
  induction j with
  | zero =>
    intro fuel start hfuel hsoft hstop
    cases fuel with
    | zero => omega
    | succ f =>
      simp only [fetchLoop]
      rw [show start + 0 = start from rfl] at hstop
      rw [hstop]
  | succ k ih =>
    intro fuel start hfuel hsoft hstop
    cases fuel with
    | zero => omega
    | succ f =>
      have h0 : fetchClassify (t start) = none := by
        have := hsoft 0 (by omega)
        simpa using this
      simp only [fetchLoop, h0]
      have hrec := ih f (start + 1) (by omega)
        (fun i hi => by
          have := hsoft (i + 1) (by omega)
          rw [show start + (i + 1) = start + 1 + i from by omega] at this
          exact this)
        (by
          rw [show start + 1 + k = start + (k + 1) from by omega]
          exact hstop)
      rw [hrec]

/-- A single matching indicator makes `isInstagram404Page` report true. -/
theorem isInstagram404Page_of_indicator (b ind : GoStr)
    (hmem : ind ∈ instagram404Indicators)
    (hc : containsSub (toLowerGo b) (toLowerGo ind) = true) :
    isInstagram404Page b = true := by
  simp only [isInstagram404Page, List.any_eq_true]
  exact ⟨ind, hmem, hc⟩

/-- Splitting never yields the empty list of segments. -/
theorem splitOnChar_ne_nil (s : GoStr) (c : Char) : splitOnChar s c ≠ [] := by
  cases s with
  | nil => simp [splitOnChar]
  | cons x xs =>
    simp only [splitOnChar]
    split
    · simp
    · split <;> simp

/-- When the input is non-empty and does not end in the separator, the last
segment of the split is non-empty. -/
theorem splitOnChar_getLast_ne_nil (p : GoStr) (c : Char) :
    p ≠ [] → p.getLast? ≠ some c →
    ∃ l, (splitOnChar p c).getLast? = some l ∧ l ≠ [] := by
  induction p with
  | nil => intro hne _; exact absurd rfl hne
  | cons x xs ih =>
    intro _ hend
    by_cases hxsnil : xs = []
    · subst hxsnil
      have hx : x ≠ c := by
        simpa [List.getLast?] using hend
      refine ⟨[x], ?_, by simp⟩
      simp [splitOnChar, if_neg hx]
    · have hlast : (x :: xs).getLast? = xs.getLast? := by
        cases xs with
        | nil => exact absurd rfl hxsnil
        | cons y ys => exact List.getLast?_cons_cons
      have hend' : xs.getLast? ≠ some c := by rw [← hlast]; exact hend
      obtain ⟨l, hl, hlne⟩ := ih hxsnil hend'
      by_cases hx : x = c
      · refine ⟨l, ?_, hlne⟩
        simp only [splitOnChar, if_pos hx]
        cases hS : splitOnChar xs c with
        | nil => exact absurd hS (splitOnChar_ne_nil xs c)
        | cons h0 t0 =>
          rw [hS] at hl
          rw [List.getLast?_cons_cons]
          exact hl
      · cases hS : splitOnChar xs c with
        | nil => exact absurd hS (splitOnChar_ne_nil xs c)
        | cons h0 t0 =>
          rw [hS] at hl
          cases t0 with
          | nil =>
            refine ⟨x :: h0, ?_, by simp⟩
            simp [splitOnChar, if_neg hx, hS]
          | cons z zs =>
            refine ⟨l, ?_, hlne⟩
            simp only [splitOnChar, if_neg hx, hS]
            rw [List.getLast?_cons_cons]
            rw [List.getLast?_cons_cons] at hl
            exact hl

/-- The `getD (length - 1)` access used by `ExtractShortcode` is the last
element of the segment list. -/
theorem getD_length_sub_one (L : List GoStr) (hne : L ≠ []) :
    L.getD (L.length - 1) [] = L.getLast?.getD [] := by
  induction L with
  | nil => exact absurd rfl hne
  | cons a t ih =>
    cases t with
    | nil => simp [List.getD, List.getLast?]
    | cons b ts =>
      have hlen : (a :: b :: ts).length - 1 = (b :: ts).length - 1 + 1 := by
        simp
      rw [hlen]
      rw [List.getD_cons_succ]
      rw [List.getLast?_cons_cons]
      exact ih (by simp)

/-- Two inputs that both pass the domain check and have the same
slash-stripped path extract identically whenever the first succeeds. -/
theorem ExtractShortcode_congr (u₁ u₂ id : GoStr)
    (hc2 : containsSub u₂ (gs "instagram.com") = true)
    (hpath : trimSuffixChar (urlPath u₂) '/' = trimSuffixChar (urlPath u₁) '/')
    (hok : ExtractShortcode u₁ = Except.ok id) :
    ExtractShortcode u₂ = Except.ok id := by
  by_cases hc1 : containsSub u₁ (gs "instagram.com") = true
  case neg =>
    unfold ExtractShortcode at hok
    rw [if_neg hc1] at hok
    exact absurd hok (by simp)
  unfold ExtractShortcode at hok ⊢
  rw [if_pos hc1] at hok
  rw [if_pos hc2, hpath]
  by_cases hlen :
      3 ≤ (splitOnChar (trimSuffixChar (urlPath u₁) '/') '/').length
  case neg =>
    rw [if_neg hlen] at hok
    exact absurd hok (by simp)
  rw [if_pos hlen] at hok ⊢
  by_cases hmark :
      (splitOnChar (trimSuffixChar (urlPath u₁) '/') '/').getD
          ((splitOnChar (trimSuffixChar (urlPath u₁) '/') '/').length - 2) [] = gs "p"
        ∨ (splitOnChar (trimSuffixChar (urlPath u₁) '/') '/').getD
          ((splitOnChar (trimSuffixChar (urlPath u₁) '/') '/').length - 2) [] = gs "reel"
        ∨ (splitOnChar (trimSuffixChar (urlPath u₁) '/') '/').getD
          ((splitOnChar (trimSuffixChar (urlPath u₁) '/') '/').length - 2) [] = gs "tv"
  case neg =>
    rw [if_neg hmark] at hok
    exact absurd hok (by simp)
  rw [if_pos hmark] at hok ⊢
  exact hok

/-- C1: the claim that `findVideoURL` and `extractMetadata` complete
without panicking on every decoded JSON tree is false: both contain an
unchecked type assertion `itemMap["1"].(map[string]interface{})` (and
`findVideoURL` additionally `items[0].(map[string]interface{})`), which
panics on the concrete decoded trees below. -/
theorem findVideoURL_and_extractMetadata_panic_on_malformed_trees :
    findVideoURL requireNoKey1 (gs "ABC") = GoOut.panicked ∧
    extractMetadata requireNoKey1Meta = GoOut.panicked :=
  ⟨rfl, rfl⟩

/-- C2 counterexample: it is not the case that whenever structured data
decodes but yields no video URL, the raw-text fallback is attempted before
failure — on `bodyStructuredMiss` the fallback pattern scan would succeed
with `https://x.mp4`, yet the pipeline fails with the structured-path
error instead. -/
theorem fallback_not_attempted_after_structured_miss_cex :
    ¬ (∀ (body shortcode : GoStr) (data : JObj) (url : GoStr),
        extractJSONData body = GoOut.val (Except.ok data) →
        findVideoURL data shortcode = GoOut.val [] →
        extractDirectVideoURL body = Except.ok url →
        extractFromBody body shortcode = GoOut.val (Except.ok
          { videoURL := url, fileName := shortcode ++ gs ".mp4",
            username := [], caption := [] })) := by
  intro h
  have hc := h bodyStructuredMiss (gs "ABC123") dataStructuredMiss
    (gs "https://x.mp4") (by rfl) (by rfl) (by rfl)
  have hval : extractFromBody bodyStructuredMiss (gs "ABC123") =
      GoOut.val (Except.error
        (gs "could not find video URL in Instagram response")) := by rfl
  rw [hval] at hc
  simp at hc

/-- C2 amended: when structured data decodes but the five shape probes
yield no video URL, `GetMediaInfo` fails immediately with the
structured-path parse error; the raw-text fallback scans are attempted only
when no structured data decodes at all. -/
theorem structured_miss_fails_immediately
    (body shortcode : GoStr) (data : JObj)
    (hjson : extractJSONData body = GoOut.val (Except.ok data))
    (hmiss : findVideoURL data shortcode = GoOut.val []) :
    extractFromBody body shortcode =
      GoOut.val (Except.error
        (gs "could not find video URL in Instagram response")) := by
  unfold extractFromBody
  rw [hjson]
  show parseMediaInfo data shortcode = _
  unfold parseMediaInfo
  rw [hmiss]
  simp

/-- Witness for `structured_miss_fails_immediately` at the concrete body
`bodyStructuredMiss`. -/
theorem structured_miss_fails_immediately_witness :
    extractJSONData bodyStructuredMiss = GoOut.val (Except.ok dataStructuredMiss) ∧
    findVideoURL dataStructuredMiss (gs "ABC123") = GoOut.val [] ∧
    extractFromBody bodyStructuredMiss (gs "ABC123") =
      GoOut.val (Except.error
        (gs "could not find video URL in Instagram response")) :=
  ⟨rfl, rfl,
    structured_miss_fails_immediately bodyStructuredMiss (gs "ABC123")
      dataStructuredMiss rfl rfl⟩

/-- C3 counterexample: a definitive 5xx status does stop the fetch after
one transport call, but the resulting error kind is the code's
`ErrorTypeNetwork`; no kind of the code's taxonomy corresponds to the
spec's `UpstreamError`, so the claimed kind is wrong. -/
theorem hard_stop_upstream_kind_cex :
    ¬ (∀ (t : Nat → FetchOutcome) (s : Nat) (b : GoStr),
        t 0 = FetchOutcome.resp s b → 500 ≤ s →
        ∃ k n, runFetch t = (FetchStop.failure k, n) ∧
          kindMatches SpecErrorKind.specUpstreamError k = true) := by
  intro h
  obtain ⟨k, n, hrun, hmatch⟩ :=
    h (fun _ => FetchOutcome.resp 500 []) 500 [] rfl (by omega)
  have hval : runFetch (fun _ => FetchOutcome.resp 500 []) =
      (FetchStop.failure ErrorType.network, 1) := by rfl
  rw [hval] at hrun
  have hk : ErrorType.network = k := by
    have := congrArg Prod.fst hrun
    simpa using this
  rw [← hk] at hmatch
  simp [kindMatches] at hmatch

/-- C3 amended: when the fetch reaches a candidate whose response status is
5xx, or 4xx other than 404 and 429, the loop stops immediately (exactly
`j + 1` transport invocations) and fails with the code's network kind
(`NewNetworkError`), the code's taxonomy having no upstream kind. -/
theorem definitive_status_hard_stop_network_kind
    (t : Nat → FetchOutcome) (j s : Nat) (b : GoStr)
    (hj : j < 4)
    (hsoft : ∀ i, i < j → fetchClassify (t i) = none)
    (hresp : t j = FetchOutcome.resp s b)
    (hs : 500 ≤ s ∨ (400 ≤ s ∧ s < 500 ∧ s ≠ 404 ∧ s ≠ 429)) :
    runFetch t = (FetchStop.failure ErrorType.network, j + 1) := by
  have hcls : fetchClassify (t j) = some (FetchStop.failure ErrorType.network) := by
    rw [hresp]
    simp only [fetchClassify]
    rcases hs with h5 | ⟨h4, h5', h404, h429⟩
    · rw [if_neg (by omega), if_pos (by omega), if_neg (by omega),
        if_neg (by omega), if_pos (by omega)]
    · rw [if_neg (by omega), if_pos (by omega), if_neg h404,
        if_neg h429, if_neg (by omega)]
  have := fetchLoop_stop t (FetchStop.failure ErrorType.network) j 4 0 hj
    (fun i hi => by simpa using hsoft i hi) (by simpa using hcls)
  simpa [runFetch] using this

/-- Witness for `definitive_status_hard_stop_network_kind`: a transport
answering 503 on the first candidate. -/
theorem definitive_status_hard_stop_network_kind_witness :
    runFetch (fun _ => FetchOutcome.resp 503 []) =
      (FetchStop.failure ErrorType.network, 1) :=
  definitive_status_hard_stop_network_kind
    (fun _ => FetchOutcome.resp 503 []) 0 503 []
    (by omega) (fun i hi => absurd hi (by omega)) rfl (by omega)

/-- C4: a 404 on the first candidate fails with the not-found kind after
exactly one transport invocation, and a 429 with the rate-limited kind
after exactly one transport invocation. -/
theorem hard_stop_404_and_429_first_candidate
    (t : Nat → FetchOutcome) (b b' : GoStr) :
    (t 0 = FetchOutcome.resp 404 b →
      runFetch t = (FetchStop.failure ErrorType.notFound, 1)) ∧
    (t 0 = FetchOutcome.resp 429 b' →
      runFetch t = (FetchStop.failure ErrorType.rateLimited, 1)) := by
  constructor
  · intro h
    have hcls : fetchClassify (t 0) = some (FetchStop.failure ErrorType.notFound) := by
      rw [h]
      rfl
    exact fetchLoop_stop t (FetchStop.failure ErrorType.notFound) 0 4 0
      (by omega) (fun i hi => absurd hi (by omega)) hcls
  · intro h
    have hcls : fetchClassify (t 0) = some (FetchStop.failure ErrorType.rateLimited) := by
      rw [h]
      rfl
    exact fetchLoop_stop t (FetchStop.failure ErrorType.rateLimited) 0 4 0
      (by omega) (fun i hi => absurd hi (by omega)) hcls

/-- Witness for `hard_stop_404_and_429_first_candidate` at two concrete
transports. -/
theorem hard_stop_404_and_429_first_candidate_witness :
    runFetch (fun _ => FetchOutcome.resp 404 []) =
      (FetchStop.failure ErrorType.notFound, 1) ∧
    runFetch (fun _ => FetchOutcome.resp 429 []) =
      (FetchStop.failure ErrorType.rateLimited, 1) :=
  ⟨(hard_stop_404_and_429_first_candidate
      (fun _ => FetchOutcome.resp 404 []) [] []).1 rfl,
   (hard_stop_404_and_429_first_candidate
      (fun _ => FetchOutcome.resp 429 []) [] []).2 rfl⟩

/-- C5: a 2xx response whose body contains one of the fixed
unavailable-content phrases case-insensitively makes the fetch fail with
the not-found kind instead of succeeding. -/
theorem soft_404_body_yields_not_found
    (t : Nat → FetchOutcome) (j s : Nat) (b ind : GoStr)
    (hj : j < 4)
    (hsoft : ∀ i, i < j → fetchClassify (t i) = none)
    (hresp : t j = FetchOutcome.resp s b)
    (h2a : 200 ≤ s) (h2b : s < 300)
    (hmem : ind ∈ instagram404Indicators)
    (hcon : containsSub (toLowerGo b) (toLowerGo ind) = true) :
    runFetch t = (FetchStop.failure ErrorType.notFound, j + 1) := by
  have h404 : isInstagram404Page b = true :=
    isInstagram404Page_of_indicator b ind hmem hcon
  have hcls : fetchClassify (t j) = some (FetchStop.failure ErrorType.notFound) := by
    rw [hresp]
    simp only [fetchClassify]
    rw [if_pos ⟨h2a, h2b⟩, if_pos h404]
  have := fetchLoop_stop t (FetchStop.failure ErrorType.notFound) j 4 0 hj
    (fun i hi => by simpa using hsoft i hi) (by simpa using hcls)
  simpa [runFetch] using this

/-- Witness for `soft_404_body_yields_not_found`: a 200 response whose body
contains "Sorry, this page isn't available". -/
theorem soft_404_body_yields_not_found_witness :
    runFetch (fun _ => FetchOutcome.resp 200
        (gs "<html>Sorry, this page isn\x27t available</html>")) =
      (FetchStop.failure ErrorType.notFound, 1) :=
  soft_404_body_yields_not_found
    (fun _ => FetchOutcome.resp 200
      (gs "<html>Sorry, this page isn\x27t available</html>"))
    0 200 (gs "<html>Sorry, this page isn\x27t available</html>")
    (gs "Sorry, this page isn\x27t available")
    (by omega) (fun i hi => absurd hi (by omega)) rfl (by omega) (by omega)
    (by simp [instagram404Indicators]) (by rfl)

/-- C6: on the decoded Shape C object with identifier `ABC123`,
`parseMediaInfo` succeeds with video URL `https://cdn.example/a.mp4` and
file name `ABC123.mp4` (and no metadata). -/
theorem shape_c_hit_media_resolution :
    parseMediaInfo shapeCObject (gs "ABC123") =
      GoOut.val (Except.ok
        { videoURL := gs "https://cdn.example/a.mp4",
          fileName := gs "ABC123.mp4", username := [], caption := [] }) :=
  rfl

/-- C7: the unescaping round trip holds only for favourable traversal
orders of the Go replacement map.  In the table's textual order the output
is the clean URL, but in the equally possible order that applies the
bare-backslash rule first the output is the mangled string below, so the
code does not guarantee the claimed output. -/
theorem unescapeURL_round_trip_order_dependence :
    unescapeURLWith replacements escapedRoundTripInput =
      gs "https://example.com/v.mp4?token=abc&x=1" ∧
    List.Perm replacementsBackslashFirst replacements ∧
    unescapeURLWith replacementsBackslashFirst escapedRoundTripInput =
      gs "https:u002Fu002Fexample.comu002Fv.mp4u003Ftokenu003Dabcu0026xu003D1" :=
  ⟨rfl, by decide, rfl⟩

/-- C8: for a scheme-carrying URL without query, fragment or
percent-escapes whose path does not end in a slash and on which extraction
succeeds, appending a trailing slash does not change the result. -/
theorem ExtractShortcode_trailing_slash_idempotent
    (u : GoStr)
    (hscheme : (afterScheme u).isSome = true)
    (hq : containsChar u '?' = false)
    (hh : containsChar u '#' = false)
    (hp : containsChar u '%' = false)
    (hslash : endsWithChar u '/' = false)
    (hok : ∃ id, ExtractShortcode u = Except.ok id) :
    ExtractShortcode (u ++ gs "/") = ExtractShortcode u := by
  obtain ⟨id, hid⟩ := hok
  have hc1 : containsSub u (gs "instagram.com") = true := by
    by_contra hc
    unfold ExtractShortcode at hid
    rw [if_neg hc] at hid
    exact absurd hid (by simp)
  obtain ⟨r, hr⟩ := Option.isSome_iff_exists.mp hscheme
  have hup1 : urlPath u = pathPart r := by simp [urlPath, hr]
  by_cases hpnil : pathPart r = []
  · exfalso
    unfold ExtractShortcode at hid
    rw [if_pos hc1] at hid
    rw [hup1, hpnil] at hid
    simp [trimSuffixChar, splitOnChar] at hid
  · have hplast : (pathPart r).getLast? = u.getLast? :=
      (getLast?_of_suffix _ _
        ((pathPart_suffix r).trans (afterScheme_suffix u r hr)) hpnil).symm
    have hpend : endsWithChar (pathPart r) '/' = false := by
      simp only [endsWithChar] at hslash ⊢
      rw [hplast]
      exact hslash
    have hup2 : urlPath (u ++ gs "/") = pathPart r ++ gs "/" := by
      have h1 : afterScheme (u ++ gs "/") = some (r ++ gs "/") :=
        afterScheme_append u r _ hr
      simp [urlPath, h1, pathPart_append r _ hpnil]
    have hpath : trimSuffixChar (urlPath (u ++ gs "/")) '/' =
        trimSuffixChar (urlPath u) '/' := by
      rw [hup2, hup1]
      rw [show gs "/" = ['/'] from rfl]
      rw [trimSuffixChar_concat]
      rw [trimSuffixChar_of_not_ends _ _ hpend]
    have hc2 : containsSub (u ++ gs "/") (gs "instagram.com") = true :=
      containsSub_append _ _ _ hc1
    rw [hid]
    exact ExtractShortcode_congr u (u ++ gs "/") id hc2 hpath hid

/-- Witness for `ExtractShortcode_trailing_slash_idempotent` at the URL
`https://www.instagram.com/reel/ABC123`. -/
theorem ExtractShortcode_trailing_slash_idempotent_witness :
    (afterScheme (gs "https://www.instagram.com/reel/ABC123")).isSome = true ∧
    ExtractShortcode (gs "https://www.instagram.com/reel/ABC123" ++ gs "/") =
      ExtractShortcode (gs "https://www.instagram.com/reel/ABC123") :=
  ⟨rfl,
    ExtractShortcode_trailing_slash_idempotent
      (gs "https://www.instagram.com/reel/ABC123")
      rfl rfl rfl rfl rfl ⟨gs "ABC123", rfl⟩⟩

/-- C9 counterexample: extraction can succeed with an empty identifier —
on `https://www.instagram.com/p//` the trailing slash is stripped, the
segments are `["", "p", ""]`, the marker check passes and the returned
identifier is the empty string. -/
theorem ExtractShortcode_empty_identifier_cex :
    ¬ (∀ (u id : GoStr), ExtractShortcode u = Except.ok id → id ≠ []) := by
  intro h
  exact h (gs "https://www.instagram.com/p//") [] rfl rfl

/-- C9 amended: whenever extraction succeeds and the slash-stripped path
does not itself end in a slash (i.e. the last path segment is non-empty),
the returned identifier is non-empty. -/
theorem ExtractShortcode_identifier_nonempty_unless_trailing_slash
    (u id : GoStr)
    (hok : ExtractShortcode u = Except.ok id)
    (hend : endsWithChar (trimSuffixChar (urlPath u) '/') '/' = false) :
    id ≠ [] := by
  unfold ExtractShortcode at hok
  by_cases hc : containsSub u (gs "instagram.com") = true
  case neg =>
    rw [if_neg hc] at hok
    exact absurd hok (by simp)
  rw [if_pos hc] at hok
  by_cases hlen :
      3 ≤ (splitOnChar (trimSuffixChar (urlPath u) '/') '/').length
  case neg =>
    rw [if_neg hlen] at hok
    exact absurd hok (by simp)
  rw [if_pos hlen] at hok
  by_cases hmark :
      (splitOnChar (trimSuffixChar (urlPath u) '/') '/').getD
          ((splitOnChar (trimSuffixChar (urlPath u) '/') '/').length - 2) [] = gs "p"
        ∨ (splitOnChar (trimSuffixChar (urlPath u) '/') '/').getD
          ((splitOnChar (trimSuffixChar (urlPath u) '/') '/').length - 2) [] = gs "reel"
        ∨ (splitOnChar (trimSuffixChar (urlPath u) '/') '/').getD
          ((splitOnChar (trimSuffixChar (urlPath u) '/') '/').length - 2) [] = gs "tv"
  case neg =>
    rw [if_neg hmark] at hok
    exact absurd hok (by simp)
  rw [if_pos hmark] at hok
  have hid : (splitOnChar (trimSuffixChar (urlPath u) '/') '/').getD
      ((splitOnChar (trimSuffixChar (urlPath u) '/') '/').length - 1) [] = id := by
    injection hok
  have hpne : trimSuffixChar (urlPath u) '/' ≠ [] := by
    intro hnil
    rw [hnil] at hlen
    simp [splitOnChar] at hlen
  have hplast : (trimSuffixChar (urlPath u) '/').getLast? ≠ some '/' := by
    simpa [endsWithChar] using hend
  obtain ⟨l, hl, hlne⟩ :=
    splitOnChar_getLast_ne_nil (trimSuffixChar (urlPath u) '/') '/' hpne hplast
  have hgd := getD_length_sub_one
    (splitOnChar (trimSuffixChar (urlPath u) '/') '/')
    (splitOnChar_ne_nil _ _)
  rw [hl] at hgd
  rw [hgd] at hid
  rw [← hid]
  simpa using hlne

/-- Witness for
`ExtractShortcode_identifier_nonempty_unless_trailing_slash` at
`https://www.instagram.com/p/XYZ`. -/
theorem ExtractShortcode_identifier_nonempty_witness :
    gs "XYZ" ≠ [] :=
  ExtractShortcode_identifier_nonempty_unless_trailing_slash
    (gs "https://www.instagram.com/p/XYZ") (gs "XYZ") rfl rfl

/-- C10: `unescapeURL` is not deterministic across the traversal orders of
its replacement map: the table's textual order and the
backslash-rule-first order (both reachable by Go's randomized map
iteration) give different outputs on `escapedRoundTripInput`. -/
theorem unescapeURL_depends_on_table_order :
    List.Perm replacementsBackslashFirst replacements ∧
    unescapeURLWith replacementsBackslashFirst escapedRoundTripInput ≠
      unescapeURLWith replacements escapedRoundTripInput :=
  ⟨by decide, by decide⟩
